import Mathlib

/-!
Verification of the benchmark evaluation framework
(`run_benchmark.py` and `generate_leaderboard.py`).

The Python code is shallowly embedded: JSON values become an inductive
`JVal`, Python dicts become ordered association lists, fallible Python
operations become `Except String`-valued functions, and the ambient
environment (filesystem, subprocess, clock) is passed explicitly.
-/

/-- A JSON value, as produced by `json.loads`. Python distinguishes
`int` and `float`; both are collapsed into `ℚ` here (no claim depends
on the distinction). Objects keep insertion order, as Python dicts do. -/
inductive JVal where
  | jnull : JVal
  | jbool : Bool → JVal
  | jnum : ℚ → JVal
  | jstr : String → JVal
  | jarr : List JVal → JVal
  | jobj : List (String × JVal) → JVal

/-- A Python dict with string keys: an ordered association list. -/
abbrev PyDict := List (String × JVal)

/-- Lookup of a key in a dict (first occurrence). -/
def dictLookup (d : PyDict) (k : String) : Option JVal :=
  match d with
  | [] => none
  | (k', v) :: rest => if k' = k then some v else dictLookup rest k

/-- Python key assignment `d[k] = v`: when the key is already present its
value is replaced in place (Python dicts keep the original position);
otherwise the pair is appended at the end. -/
def dictSet (d : PyDict) (k : String) (v : JVal) : PyDict :=
  match d with
  | [] => [(k, v)]
  | (k', v') :: rest => if k' = k then (k', v) :: rest else (k', v') :: dictSet rest k v

/-- Python `d.get(k, default)` on a dict. -/
def dictGetD (d : PyDict) (k : String) (default : JVal) : JVal :=
  (dictLookup d k).getD default

/-- Python truthiness (`bool(v)`) of a JSON value. -/
def pyTruthy : JVal → Bool
  | .jnull => false
  | .jbool b => b
  | .jnum q => q ≠ 0
  | .jstr s => s ≠ ""
  | .jarr xs => !xs.isEmpty
  | .jobj fs => !fs.isEmpty

/-!
## `run_benchmark.py`: `BenchmarkRunner.run_benchmark`

The ambient world of one benchmark run is passed explicitly: whether
`verification/verify.sh` exists, what the `subprocess.run` call does, and
the timestamp string `datetime.utcnow().isoformat()` (the code appends
`"Z"` itself). `json.loads(result.stdout)` is modelled by the field
`stdoutJson : Option JVal` of the completed outcome: `none` is a
`json.JSONDecodeError`, `some v` a successful parse of the captured
stdout to the value `v`. The `print` calls are I/O-free in the model.
-/

/-- The outcome of `subprocess.run([verify_script], ..., timeout=300)`:
it completes with captured stdout/stderr and a return code, raises
`subprocess.TimeoutExpired`, or raises some other exception with
message `msg` (`str(e)`). -/
inductive SubprocOutcome where
  | completed (stdout stderr : String) (stdoutJson : Option JVal) (returncode : ℤ)
  | timedOut
  | raised (msg : String)

/-- Environment of a single `run_benchmark` invocation. -/
structure BenchEnv where
  scriptExists : Bool
  outcome : SubprocOutcome
  timestamp : String

/-- The error-result dict shape shared by the three `except`/early-return
branches of `run_benchmark`. -/
def errResult (name err ts : String) : PyDict :=
  [("benchmark", .jstr name), ("error", .jstr err), ("timestamp", .jstr (ts ++ "Z"))]

/-- `str(e)` for the `TypeError` raised by `output["exit_code"] = ...`
when `output` is not a dict. (`jnum` collapses Python `int`/`float`,
whose messages differ; no claim inspects the text.) -/
def itemAssignErrMsg : JVal → String
  | .jnull => "'NoneType' object does not support item assignment"
  | .jbool _ => "'bool' object does not support item assignment"
  | .jnum _ => "'int' object does not support item assignment"
  | .jstr _ => "'str' object does not support item assignment"
  | .jarr _ => "list indices must be integers or slices, not str"
  | .jobj _ => ""

/-- `BenchmarkRunner.run_benchmark` (run_benchmark.py, lines 36-91).
If the script is missing, the `verify.sh not found` error result is
returned before any subprocess is spawned. Otherwise the subprocess runs:
a timeout or an exception each yields its error result. On completion,
stdout is parsed: a parse failure builds the `Invalid JSON output` dict;
then `output["exit_code"]`/`output["execution_time_ms"]` are assigned,
which on a non-dict parsed value raises a `TypeError` caught by the
enclosing `except Exception` (the `Execution failed: ...` branch).
The Lean function is total: every path returns a dict. -/
def run_benchmark (env : BenchEnv) (benchmark_name : String) : PyDict :=
  if !env.scriptExists then
    errResult benchmark_name "verify.sh not found" env.timestamp
  else
    match env.outcome with
    | .timedOut => errResult benchmark_name "Execution timeout (300s)" env.timestamp
    | .raised msg => errResult benchmark_name ("Execution failed: " ++ msg) env.timestamp
    | .completed stdout stderr stdoutJson rc =>
      match stdoutJson with
      | some (.jobj fields) =>
          dictSet (dictSet fields "exit_code" (.jnum (rc : ℚ))) "execution_time_ms" .jnull
      | some v =>
          errResult benchmark_name ("Execution failed: " ++ itemAssignErrMsg v) env.timestamp
      | none =>
          let output : PyDict :=
            [("benchmark", .jstr benchmark_name),
             ("error", .jstr "Invalid JSON output"),
             ("stdout", .jstr stdout),
             ("stderr", .jstr stderr),
             ("exit_code", .jnum (rc : ℚ)),
             ("timestamp", .jstr (env.timestamp ++ "Z"))]
          dictSet (dictSet output "exit_code" (.jnum (rc : ℚ))) "execution_time_ms" .jnull

/-!
## `run_benchmark.py`: `BenchmarkRunner.list_benchmarks` and `main`
-/

/-- One entry of `self.benchmarks_dir.iterdir()`: its name, whether it is
a directory, and whether `<entry>/verification/verify.sh` exists. -/
structure DirEntry where
  name : String
  isDir : Bool
  hasVerifySh : Bool

/-- `BenchmarkRunner.list_benchmarks` (run_benchmark.py, lines 28-34):
names of the immediate subdirectories holding a
`verification/verify.sh`, sorted (`sorted` on strings is lexicographic
by code point, as is `String.le`). The function is pure: it only reads
the directory listing passed in. -/
def list_benchmarks (fs : List DirEntry) : List String :=
  ((fs.filter (fun e => e.isDir && e.hasVerifySh)).map DirEntry.name).mergeSort
    (fun a b => a ≤ b)

/-- The parsed command-line arguments of `run_benchmark.py`:
an optional positional benchmark name, `--all`, `--list`. -/
structure Args where
  benchmark : Option String
  all : Bool
  listFlag : Bool

/-- Environment of the runner CLI: the benchmarks directory listing and,
for each benchmark name, the environment its run would see. -/
structure CliEnv where
  fs : List DirEntry
  envOf : String → BenchEnv

/-- The `results["results"]` list built by
`BenchmarkRunner.run_all_benchmarks` (run_benchmark.py, lines 105-124):
one `run_benchmark` result per listed benchmark, in order. -/
def run_all_benchmarks (cli : CliEnv) : List PyDict :=
  (list_benchmarks cli.fs).map (fun b => run_benchmark (cli.envOf b) b)

/-- `r.get("passed", False)` is truthy. -/
def resultPassed (r : PyDict) : Bool :=
  pyTruthy (dictGetD r "passed" (.jbool false))

/-- The return value of `main` (run_benchmark.py, lines 127-201), which
`sys.exit` turns into the process exit code. `--list` returns 0;
`--all` returns 0 iff the number of results whose `passed` is truthy
equals `total_benchmarks`; a positional benchmark returns 0 iff its
result's `passed` is truthy; no argument prints help and returns 1.
File-saving side effects are ignored. -/
def main_exit (cli : CliEnv) (args : Args) : ℕ :=
  if args.listFlag then 0
  else if args.all then
    let results := run_all_benchmarks cli
    let passed := (results.filter resultPassed).length
    let total := (list_benchmarks cli.fs).length
    if passed = total then 0 else 1
  else
    match args.benchmark with
    | some name =>
        if resultPassed (run_benchmark (cli.envOf name) name) then 0 else 1
    | none => 1

/-!
## `generate_leaderboard.py`: `LeaderboardGenerator.load_results`

A directory is a list of files in `glob` order; each file is `none` when
`open`/`json.load` raises (unreadable or invalid JSON), `some v` when it
parses to the value `v`. Python operations that can raise are
`Except String`-valued; the string is `str(e)`.
-/

/-- Python `needle in data` for a string needle. Membership in a dict
tests its keys, in a list tests `==` against each element (a string
equals only an equal string), in a string tests substring containment;
on non-iterable values it raises `TypeError`. -/
def pyContains (needle : String) (data : JVal) : Except String Bool :=
  match data with
  | .jobj fields => .ok (fields.any (fun p => p.1 = needle))
  | .jarr xs => .ok (xs.any (fun x => match x with | .jstr s => s = needle | _ => false))
  | .jstr s => .ok (decide (List.IsInfix needle.toList s.toList))
  | .jnull => .error "argument of type 'NoneType' is not iterable"
  | .jbool _ => .error "argument of type 'bool' is not iterable"
  | .jnum _ => .error "argument of type 'int' is not iterable"

/-- Python `data[k]` for a string key: dict lookup (`KeyError` when
absent); lists and strings reject string indices; other values are not
subscriptable. -/
def pyGetItem (data : JVal) (k : String) : Except String JVal :=
  match data with
  | .jobj fields =>
      match dictLookup fields k with
      | some v => .ok v
      | none => .error "KeyError"
  | .jarr _ => .error "list indices must be integers or slices, not str"
  | .jstr _ => .error "string indices must be integers"
  | _ => .error "object is not subscriptable"

/-- Python iteration over a value, as consumed by `list.extend`:
a list yields its elements, a string its one-character substrings,
a dict its keys; other values raise `TypeError`. -/
def pyIter : JVal → Except String (List JVal)
  | .jarr xs => .ok xs
  | .jstr s => .ok (s.toList.map (fun c => .jstr (String.mk [c])))
  | .jobj fields => .ok (fields.map (fun p => .jstr p.1))
  | .jnull => .error "'NoneType' object is not iterable"
  | .jbool _ => .error "'bool' object is not iterable"
  | .jnum _ => .error "'int' object is not iterable"

/-- The body of the `try` in `load_results` after `json.load` succeeds
with `data`: `if "results" in data: results.extend(data["results"])
else: results.append(data)` — the list of items appended, or the
exception that the `except` clause will catch. -/
def processFile (data : JVal) : Except String (List JVal) := do
  if ← pyContains "results" data then
    pyIter (← pyGetItem data "results")
  else
    pure [data]

/-- `LeaderboardGenerator.load_results` (generate_leaderboard.py,
lines 26-40). Files that fail to read/parse (`none`) and files whose
processing raises are skipped with a warning; everything else extends
the accumulated list. Total by construction: it never raises. -/
def load_results (files : List (Option JVal)) : List JVal :=
  files.foldl
    (fun results file =>
      match file with
      | none => results
      | some data =>
        match processFile data with
        | .ok items => results ++ items
        | .error _ => results)
    []

/-- The contribution of one directory entry to `load_results`:
nothing for unreadable files and files whose processing raises,
otherwise the appended items. -/
def fileItems (file : Option JVal) : List JVal :=
  match file with
  | none => []
  | some data =>
    match processFile data with
    | .ok items => items
    | .error _ => []

/-!
## `generate_leaderboard.py`: `calculate_statistics` and
`group_by_benchmark`
-/

/-- Python `r.get(k, default)`: on a dict the defaulted lookup; any
other value has no `get` method (`AttributeError`). -/
def pyDictGet (r : JVal) (k : String) (default : JVal) : Except String JVal :=
  match r with
  | .jobj fields => .ok (dictGetD fields k default)
  | .jnull => .error "'NoneType' object has no attribute 'get'"
  | .jbool _ => .error "'bool' object has no attribute 'get'"
  | .jnum _ => .error "'int' object has no attribute 'get'"
  | .jstr _ => .error "'str' object has no attribute 'get'"
  | .jarr _ => .error "'list' object has no attribute 'get'"

/-- A JSON value as a Python number: ints/floats are numbers and bools
are the numbers 0 and 1; `+`, `min`, `max` on anything else mixed with
numbers raises `TypeError`. -/
def pyToNum : JVal → Except String ℚ
  | .jnum q => .ok q
  | .jbool b => .ok (if b then 1 else 0)
  | _ => .error "unsupported operand type(s)"

/-- Python `min(scores)` over numbers: `ValueError` on an empty
sequence, otherwise the left fold of binary `min` from the first
element. -/
def pyMin : List ℚ → Except String ℚ
  | [] => .error "min() arg is an empty sequence"
  | x :: xs => .ok (xs.foldl min x)

/-- Python `max(scores)` over numbers. -/
def pyMax : List ℚ → Except String ℚ
  | [] => .error "max() arg is an empty sequence"
  | x :: xs => .ok (xs.foldl max x)

/-- The statistics dict returned by `calculate_statistics`
(`count`, `avg_score`, `min_score`, `max_score`, `pass_rate`). -/
structure Stats where
  count : ℕ
  avg_score : ℚ
  min_score : ℚ
  max_score : ℚ
  pass_rate : ℚ
deriving DecidableEq, Repr

/-- `LeaderboardGenerator.calculate_statistics`
(generate_leaderboard.py, lines 50-70). An empty input returns the
zero statistics immediately. Otherwise `scores` and the `passed` count
are built first (`.get` raises on non-dict elements), then the result
dict's values are evaluated in order: `sum(scores)` rejects non-numeric
scores before `min`/`max` run. -/
def calculate_statistics (results : List JVal) : Except String Stats :=
  if results.isEmpty then
    .ok ⟨0, 0, 0, 0, 0⟩
  else do
    let scores ← results.mapM (fun r => pyDictGet r "final_score" (.jnum 0))
    let passedVals ← results.mapM (fun r => pyDictGet r "passed" (.jbool false))
    let passed := (passedVals.filter pyTruthy).length
    let nums ← scores.mapM pyToNum
    let mn ← pyMin nums
    let mx ← pyMax nums
    pure ⟨results.length, nums.sum / (results.length : ℚ), mn, mx,
          ((passed : ℚ) / (results.length : ℚ)) * 100⟩

/-- A hashable Python dict key, as `grouped[benchmark]` requires.
Python identifies `True` with `1` and `1.0` as dict keys, so booleans
are collapsed into their numeric value; lists and dicts are unhashable
and raise `TypeError`. -/
inductive HKey where
  | hstr (s : String)
  | hnum (q : ℚ)
  | hnull
deriving DecidableEq, Repr

/-- A JSON value as a dict key. -/
def toKey : JVal → Except String HKey
  | .jstr s => .ok (.hstr s)
  | .jnum q => .ok (.hnum q)
  | .jbool b => .ok (.hnum (if b then 1 else 0))
  | .jnull => .ok .hnull
  | .jarr _ => .error "unhashable type: 'list'"
  | .jobj _ => .error "unhashable type: 'dict'"

/-- The key under which `group_by_benchmark` files a result:
`result.get("benchmark", "unknown")` as a dict key. -/
def groupKeyOf (r : JVal) : Except String HKey := do
  toKey (← pyDictGet r "benchmark" (.jstr "unknown"))

/-- `grouped[k].append(r)` on a `defaultdict(list)`: append to the
existing group, or create a singleton group at the end (Python dicts
keep first-insertion order). -/
def insertGroup (g : List (HKey × List JVal)) (k : HKey) (r : JVal) :
    List (HKey × List JVal) :=
  match g with
  | [] => [(k, [r])]
  | (k', rs) :: rest =>
      if k' = k then (k', rs ++ [r]) :: rest else (k', rs) :: insertGroup rest k r

/-- `LeaderboardGenerator.group_by_benchmark` (generate_leaderboard.py,
lines 42-48): fold the results into an ordered dict of groups. The
`.get` and hashing failures propagate (there is no `try` here). -/
def group_by_benchmark (results : List JVal) :
    Except String (List (HKey × List JVal)) :=
  results.foldlM
    (fun g r => do pure (insertGroup g (← groupKeyOf r) r)) []

/-- The group stored under key `k` (empty when `k` is absent). -/
def getGroup (g : List (HKey × List JVal)) (k : HKey) : List JVal :=
  match g with
  | [] => []
  | (k', rs) :: rest => if k' = k then rs else getGroup rest k

/-- Whether a result would be filed under key `k`. -/
def keyIs (k : HKey) (r : JVal) : Bool :=
  match groupKeyOf r with
  | .ok k' => k' = k
  | .error _ => false

/-- The failure modes of a single benchmark run: missing script,
timeout, unexpected exception, unparseable stdout, or stdout parsing to
a non-object value (whose `exit_code` assignment raises a `TypeError`
caught by the generic handler). -/
def envFails (env : BenchEnv) : Prop :=
  env.scriptExists = false ∨
  env.outcome = .timedOut ∨
  (∃ m, env.outcome = .raised m) ∨
  (∃ so st rc, env.outcome = .completed so st none rc) ∨
  (∃ so st v rc, env.outcome = .completed so st (some v) rc ∧
    ∀ fields, v ≠ .jobj fields)

/-- The spec's reading of "every requested run passed", written from
the spec's words for comparison with `main_exit`: `--list` requests no
runs (vacuously passed); `--all` requests one run per listed benchmark
and asks that every result's `passed` be truthy; a positional name
requests that single run; giving neither is a usage error. -/
def specAllRequestedPassed (cli : CliEnv) (args : Args) : Bool :=
  if args.listFlag then true
  else if args.all then (run_all_benchmarks cli).all resultPassed
  else
    match args.benchmark with
    | some name => resultPassed (run_benchmark (cli.envOf name) name)
    | none => false

/-- Fixture for the C8 witness: two results of benchmark `"a"` around
one result lacking the `benchmark` field. -/
def groupFixture : List JVal :=
  [.jobj [("benchmark", .jstr "a"), ("final_score", .jnum 1)],
   .jobj [("final_score", .jnum 2)],
   .jobj [("benchmark", .jstr "a"), ("final_score", .jnum 3)]]

/-!
## Helper lemmas
-/

theorem dictLookup_dictSet_self (d : PyDict) (k : String) (v : JVal) :
    dictLookup (dictSet d k v) k = some v := by
  induction d with
  | nil => simp [dictSet, dictLookup]
  | cons p rest ih =>
    obtain ⟨k', v'⟩ := p
    by_cases h : k' = k <;> simp [dictSet, dictLookup, h, ih]

theorem dictLookup_dictSet_ne (d : PyDict) (k' k : String) (v : JVal)
    (h : k' ≠ k) : dictLookup (dictSet d k' v) k = dictLookup d k := by
  induction d with
  | nil => simp [dictSet, dictLookup, h]
  | cons p rest ih =>
    obtain ⟨k₀, v₀⟩ := p
    by_cases h₀ : k₀ = k'
    · subst h₀
      simp [dictSet, dictLookup, h]
    · simp only [dictSet, if_neg h₀, dictLookup]
      by_cases h₁ : k₀ = k <;> simp [h₁, ih]

theorem run_benchmark_obj_eq (so st : String) (fields : PyDict) (rc : ℤ)
    (ts name : String) :
    run_benchmark ⟨true, .completed so st (some (.jobj fields)) rc, ts⟩ name =
      dictSet (dictSet fields "exit_code" (.jnum (rc : ℚ)))
        "execution_time_ms" .jnull := rfl

theorem run_benchmark_nojson_eq (so st : String) (rc : ℤ) (ts name : String) :
    run_benchmark ⟨true, .completed so st none rc, ts⟩ name =
      dictSet
        (dictSet
          [("benchmark", .jstr name), ("error", .jstr "Invalid JSON output"),
           ("stdout", .jstr so), ("stderr", .jstr st),
           ("exit_code", .jnum (rc : ℚ)), ("timestamp", .jstr (ts ++ "Z"))]
          "exit_code" (.jnum (rc : ℚ)))
        "execution_time_ms" .jnull := rfl

/-!
## Claims about `run_benchmark`
-/

/-- C4: for every benchmark directory lacking
`verification/verify.sh`, `run_benchmark` returns immediately the error
result whose `error` field is the literal `"verify.sh not found"`, and
no subprocess is spawned: the returned result does not depend on what
the subprocess would have done. -/
theorem run_benchmark_missing_script (env : BenchEnv) (name : String)
    (h : env.scriptExists = false) :
    run_benchmark env name =
      [("benchmark", .jstr name), ("error", .jstr "verify.sh not found"),
       ("timestamp", .jstr (env.timestamp ++ "Z"))] ∧
    ∀ outcome' : SubprocOutcome,
      run_benchmark ⟨env.scriptExists, outcome', env.timestamp⟩ name =
        run_benchmark env name := by
  refine ⟨by simp [run_benchmark, errResult, h],
    fun outcome' => by simp [run_benchmark, errResult, h]⟩

/-- C4 witness: a concrete missing-script environment. -/
theorem run_benchmark_missing_script_witness :
    run_benchmark ⟨false, .timedOut, "2025-01-01T00:00:00"⟩ "bug-fixing-001" =
      [("benchmark", .jstr "bug-fixing-001"),
       ("error", .jstr "verify.sh not found"),
       ("timestamp", .jstr ("2025-01-01T00:00:00" ++ "Z"))] :=
  (run_benchmark_missing_script ⟨false, .timedOut, "2025-01-01T00:00:00"⟩
    "bug-fixing-001" rfl).1

/-- C3: `run_benchmark` is total — as a Lean function it returns a
result dict on every path, never an exception — and every failure mode
(missing script, timeout, unparseable stdout, unexpected exception,
including the `TypeError` on non-object JSON) yields a result whose
`error` field is set. -/
theorem run_benchmark_error_on_failure (env : BenchEnv) (name : String)
    (h : envFails env) :
    ∃ msg, dictLookup (run_benchmark env name) "error" = some (.jstr msg) := by
  obtain ⟨se, oc, ts⟩ := env
  by_cases hse : se = false
  · subst hse
    exact ⟨"verify.sh not found", by simp [run_benchmark, errResult, dictLookup]⟩
  · have hse' : se = true := by simpa using hse
    subst hse'
    simp only [envFails] at h
    rcases h with h | h | ⟨m, h⟩ | ⟨so, st, rc, h⟩ | ⟨so, st, v, rc, h, hv⟩
    · simp at h
    · subst h
      exact ⟨"Execution timeout (300s)", by simp [run_benchmark, errResult, dictLookup]⟩
    · subst h
      exact ⟨"Execution failed: " ++ m, by simp [run_benchmark, errResult, dictLookup]⟩
    · subst h
      refine ⟨"Invalid JSON output", ?_⟩
      rw [run_benchmark_nojson_eq,
          dictLookup_dictSet_ne _ _ _ _ (by decide),
          dictLookup_dictSet_ne _ _ _ _ (by decide)]
      simp [dictLookup]
    · subst h
      cases v with
      | jobj fields => exact absurd rfl (hv fields)
      | jnull =>
        exact ⟨"Execution failed: " ++ itemAssignErrMsg .jnull,
          by simp [run_benchmark, errResult, dictLookup]⟩
      | jbool b =>
        exact ⟨"Execution failed: " ++ itemAssignErrMsg (.jbool b),
          by simp [run_benchmark, errResult, dictLookup]⟩
      | jnum q =>
        exact ⟨"Execution failed: " ++ itemAssignErrMsg (.jnum q),
          by simp [run_benchmark, errResult, dictLookup]⟩
      | jstr s =>
        exact ⟨"Execution failed: " ++ itemAssignErrMsg (.jstr s),
          by simp [run_benchmark, errResult, dictLookup]⟩
      | jarr xs =>
        exact ⟨"Execution failed: " ++ itemAssignErrMsg (.jarr xs),
          by simp [run_benchmark, errResult, dictLookup]⟩

/-- C3 witness: a concrete timeout environment. -/
theorem run_benchmark_error_on_failure_witness :
    ∃ msg,
      dictLookup
        (run_benchmark ⟨true, .timedOut, "2025-01-01T00:00:00"⟩ "bug-fixing-001")
        "error" = some (.jstr msg) :=
  run_benchmark_error_on_failure ⟨true, .timedOut, "2025-01-01T00:00:00"⟩
    "bug-fixing-001" (Or.inr (Or.inl rfl))

/-- C1 counterexample: on a timeout the returned result carries no
`exit_code` field at all — the lookup yields `none` (key absent), not
the JSON value `null` that "exit_code is None" would give. -/
theorem run_benchmark_timeout_no_exit_code :
    dictLookup
      (run_benchmark ⟨true, .timedOut, "2025-01-01T00:00:00"⟩ "bug-fixing-001")
      "exit_code" = none := rfl

/-- C1 (amended): `exit_code` is attached, with the subprocess's return
status, exactly on the two paths where the subprocess ran to
completion and the result dict was built from it (parsed JSON object,
and the invalid-JSON fallback); the missing-script, timeout,
unexpected-exception and non-object-JSON results carry no `exit_code`
field. -/
theorem run_benchmark_exit_code_exact (env : BenchEnv) (name : String) :
    (∀ so st j rc, env.scriptExists = true →
      env.outcome = .completed so st j rc →
      (j = none ∨ ∃ fields, j = some (.jobj fields)) →
      dictLookup (run_benchmark env name) "exit_code" = some (.jnum (rc : ℚ))) ∧
    (∀ so st v rc, env.scriptExists = true →
      env.outcome = .completed so st (some v) rc →
      (∀ fields, v ≠ .jobj fields) →
      dictLookup (run_benchmark env name) "exit_code" = none) ∧
    (env.scriptExists = false ∨ env.outcome = .timedOut ∨
      (∃ m, env.outcome = .raised m) →
      dictLookup (run_benchmark env name) "exit_code" = none) := by
  obtain ⟨se, oc, ts⟩ := env
  refine ⟨?_, ?_, ?_⟩
  · intro so st j rc hse hoc hj
    subst hse
    subst hoc
    rcases hj with hj | ⟨fields, hj⟩ <;> subst hj
    · rw [run_benchmark_nojson_eq, dictLookup_dictSet_ne _ _ _ _ (by decide),
          dictLookup_dictSet_self]
    · rw [run_benchmark_obj_eq, dictLookup_dictSet_ne _ _ _ _ (by decide),
          dictLookup_dictSet_self]
  · intro so st v rc hse hoc hv
    subst hse
    subst hoc
    cases v with
    | jobj fields => exact absurd rfl (hv fields)
    | jnull => simp [run_benchmark, errResult, dictLookup]
    | jbool b => simp [run_benchmark, errResult, dictLookup]
    | jnum q => simp [run_benchmark, errResult, dictLookup]
    | jstr s => simp [run_benchmark, errResult, dictLookup]
    | jarr xs => simp [run_benchmark, errResult, dictLookup]
  · intro h
    rcases h with h | h | ⟨m, h⟩
    · subst h
      simp [run_benchmark, errResult, dictLookup]
    · subst h
      cases se <;> simp [run_benchmark, errResult, dictLookup]
    · subst h
      cases se <;> simp [run_benchmark, errResult, dictLookup]

/-- C1 witness: a completed run whose stdout parsed to a JSON object
gets `exit_code = 7` attached. -/
theorem run_benchmark_exit_code_exact_witness :
    dictLookup
      (run_benchmark
        ⟨true, .completed "out" "" (some (.jobj [("passed", .jbool true)])) 7,
         "2025-01-01T00:00:00"⟩ "bug-fixing-001")
      "exit_code" = some (.jnum ((7 : ℤ) : ℚ)) :=
  (run_benchmark_exit_code_exact
      ⟨true, .completed "out" "" (some (.jobj [("passed", .jbool true)])) 7,
       "2025-01-01T00:00:00"⟩ "bug-fixing-001").1
    "out" "" (some (.jobj [("passed", .jbool true)])) 7 rfl rfl
    (Or.inr ⟨[("passed", .jbool true)], rfl⟩)

/-- C2 counterexample: stdout parsing to the JSON number `42` does
*not* become the result; the `exit_code` assignment on it raises and
the generic handler returns an `Execution failed` error dict. -/
theorem run_benchmark_nonobject_json_cex :
    run_benchmark
      ⟨true, .completed "42" "" (some (.jnum 42)) 0, "2025-01-01T00:00:00"⟩
      "bug-fixing-001" =
      [("benchmark", .jstr "bug-fixing-001"),
       ("error",
        .jstr "Execution failed: 'int' object does not support item assignment"),
       ("timestamp", .jstr "2025-01-01T00:00:00Z")] := rfl

/-- C2 (amended): when stdout parses to a JSON *object*, that object
itself is the result, augmented with `exit_code` (and
`execution_time_ms = None`); every other key keeps its parsed value.
When stdout parses to any non-object JSON value, the `exit_code`
assignment raises a `TypeError` and the handler returns an
`Execution failed` error result instead. -/
theorem run_benchmark_json_object_result (env : BenchEnv) (name : String) :
    (∀ so st fields rc, env.scriptExists = true →
      env.outcome = .completed so st (some (.jobj fields)) rc →
      run_benchmark env name =
        dictSet (dictSet fields "exit_code" (.jnum (rc : ℚ)))
          "execution_time_ms" .jnull ∧
      ∀ k, k ≠ "exit_code" → k ≠ "execution_time_ms" →
        dictLookup (run_benchmark env name) k = dictLookup fields k) ∧
    (∀ so st v rc, env.scriptExists = true →
      env.outcome = .completed so st (some v) rc →
      (∀ fields, v ≠ .jobj fields) →
      run_benchmark env name =
        errResult name ("Execution failed: " ++ itemAssignErrMsg v)
          env.timestamp) := by
  obtain ⟨se, oc, ts⟩ := env
  constructor
  · intro so st fields rc hse hoc
    subst hse
    subst hoc
    refine ⟨run_benchmark_obj_eq so st fields rc ts name, ?_⟩
    intro k hk₁ hk₂
    rw [run_benchmark_obj_eq,
        dictLookup_dictSet_ne _ _ _ _ (Ne.symm hk₂),
        dictLookup_dictSet_ne _ _ _ _ (Ne.symm hk₁)]
  · intro so st v rc hse hoc hv
    subst hse
    subst hoc
    cases v with
    | jobj fields => exact absurd rfl (hv fields)
    | jnull => simp [run_benchmark]
    | jbool b => simp [run_benchmark]
    | jnum q => simp [run_benchmark]
    | jstr s => simp [run_benchmark]
    | jarr xs => simp [run_benchmark]

/-!
## Claims about `list_benchmarks` and the runner CLI
-/

/-- C9: `list_benchmarks` returns exactly the names of the immediate
subdirectories of the benchmarks root containing
`verification/verify.sh` — the output is a permutation of those names —
and it is sorted lexicographically. It is a pure function of the
directory listing: no side effects. -/
theorem list_benchmarks_sorted_exact (fs : List DirEntry) :
    (list_benchmarks fs).Perm
      ((fs.filter (fun e => e.isDir && e.hasVerifySh)).map DirEntry.name) ∧
    List.Sorted (· ≤ ·) (list_benchmarks fs) := by
  constructor
  · exact List.mergeSort_perm _ _
  · simp only [list_benchmarks]
    refine List.Pairwise.imp ?_ (List.sorted_mergeSort ?_ ?_ _)
    · intro a b hab
      simpa using hab
    · intro a b c hab hbc
      simp only [decide_eq_true_eq] at *
      exact le_trans hab hbc
    · intro a b
      simpa [Bool.or_eq_true, decide_eq_true_eq] using le_total a b

/-- C10: the runner CLI's exit code is 0 iff every requested run
passed (sweep: every result's `passed` truthy; single benchmark: its
result's `passed` truthy; usage error: never), and 1 otherwise. -/
theorem main_exit_zero_iff (cli : CliEnv) (args : Args) :
    (main_exit cli args = 0 ↔ specAllRequestedPassed cli args = true) ∧
    (main_exit cli args = 0 ∨ main_exit cli args = 1) := by
  obtain ⟨bench, allFlag, listFlag⟩ := args
  cases listFlag
  · cases allFlag
    · cases bench with
      | none => simp [main_exit, specAllRequestedPassed]
      | some name =>
        by_cases hp : resultPassed (run_benchmark (cli.envOf name) name) <;>
          simp [main_exit, specAllRequestedPassed, hp]
    · have hlen : (run_all_benchmarks cli).length = (list_benchmarks cli.fs).length :=
        List.length_map _ _
      by_cases hall :
          ((run_all_benchmarks cli).filter resultPassed).length =
            (list_benchmarks cli.fs).length
      · have : ∀ r ∈ run_all_benchmarks cli, resultPassed r :=
          List.filter_length_eq_length.mp (hall.trans hlen.symm)
        simp only [main_exit, specAllRequestedPassed, hall, List.all_eq_true,
          if_true, if_false, Bool.false_eq_true, ite_true, ite_false, reduceIte]
        exact ⟨⟨fun _ => this, fun _ => trivial⟩, Or.inl trivial⟩
      · have : ¬ ∀ r ∈ run_all_benchmarks cli, resultPassed r = true := by
          intro hforall
          exact hall ((List.filter_length_eq_length.mpr hforall).trans hlen)
        simp [main_exit, specAllRequestedPassed, hall, List.all_eq_true, this]
  · simp [main_exit, specAllRequestedPassed]

/-!
## Claims about `load_results` and `calculate_statistics`
-/

theorem except_bind_ok {α β : Type} (a : α) (f : α → Except String β) :
    (Except.ok a : Except String α) >>= f = f a := rfl

theorem dictLookup_some_any (d : PyDict) (k : String) (v : JVal)
    (h : dictLookup d k = some v) : d.any (fun p => p.1 = k) = true := by
  induction d with
  | nil => simp [dictLookup] at h
  | cons p rest ih =>
    obtain ⟨k', v'⟩ := p
    by_cases hk : k' = k
    · simp [List.any_cons, hk]
    · simp only [dictLookup, if_neg hk] at h
      simp [List.any_cons, hk, ih h]

theorem dictLookup_none_any (d : PyDict) (k : String)
    (h : dictLookup d k = none) : d.any (fun p => p.1 = k) = false := by
  induction d with
  | nil => simp
  | cons p rest ih =>
    obtain ⟨k', v'⟩ := p
    by_cases hk : k' = k
    · simp [dictLookup, hk] at h
    · simp only [dictLookup, if_neg hk] at h
      simp [List.any_cons, hk, ih h]

theorem load_results_foldl_general (files : List (Option JVal))
    (acc : List JVal) :
    files.foldl
      (fun results file =>
        match file with
        | none => results
        | some data =>
          match processFile data with
          | .ok items => results ++ items
          | .error _ => results)
      acc = acc ++ files.flatMap fileItems := by
  induction files generalizing acc with
  | nil => simp
  | cons f rest ih =>
    have hstep :
        (match f with
          | none => acc
          | some data =>
            match processFile data with
            | .ok items => acc ++ items
            | .error _ => acc) = acc ++ fileItems f := by
      cases f with
      | none => simp [fileItems]
      | some data =>
        cases hpf : processFile data <;> simp [fileItems, hpf]
    simp only [List.foldl_cons, hstep, ih, List.flatMap_cons, List.append_assoc]

/-- C5 counterexample: a file parsing to the JSON number `5` has no
`results` key, so the claim requires its whole value to be appended as
one result; instead the membership test `"results" in 5` raises a
`TypeError` inside the `try` and the file is skipped (results from the
other valid files are still returned). -/
theorem load_results_number_cex :
    load_results [some (.jobj [("final_score", .jnum 80)]), some (.jnum 5)] =
      [.jobj [("final_score", .jnum 80)]] ∧
    load_results [some (.jnum 5)] ≠ [.jnum 5] := by
  refine ⟨rfl, ?_⟩
  intro h
  rw [show load_results [some (.jnum 5)] = [] from rfl] at h
  exact List.noConfusion h

/-- C5 (amended): `load_results` is the flattened union of the
per-file contributions, where a file contributes: the elements of a
dict's `results` list when that key is present; the whole parsed value
when it is a dict without that key (or a list on which the Python
membership test for `"results"` is false); and nothing when the file
fails to read or parse, or when the `try` body raises on the parsed
value (non-iterable values such as numbers, booleans and `null`, a
`results` membership hit on a non-dict, or a non-iterable `results`
value). It never raises: it is a total function. -/
theorem load_results_amended :
    (∀ files, load_results files = files.flatMap fileItems) ∧
    (∀ fields xs, dictLookup fields "results" = some (.jarr xs) →
      fileItems (some (.jobj fields)) = xs) ∧
    (∀ fields, dictLookup fields "results" = none →
      fileItems (some (.jobj fields)) = [.jobj fields]) ∧
    (∀ xs, xs.any (fun x => match x with | .jstr s => s = "results" | _ => false) = false →
      fileItems (some (.jarr xs)) = [.jarr xs]) ∧
    (fileItems none = []) ∧
    (∀ q : ℚ, fileItems (some (.jnum q)) = []) := by
  refine ⟨fun files => load_results_foldl_general files [], ?_, ?_, ?_, rfl, fun q => rfl⟩
  · intro fields xs h
    have hany := dictLookup_some_any fields "results" (.jarr xs) h
    simp [fileItems, processFile, pyContains, pyGetItem, pyIter, hany, h,
      except_bind_ok]
  · intro fields h
    have hany := dictLookup_none_any fields "results" h
    simp [fileItems, processFile, pyContains, hany, except_bind_ok, Pure.pure,
      Except.pure]
  · intro xs h
    simp [fileItems, processFile, pyContains, h, except_bind_ok, Pure.pure,
      Except.pure]

/-- C5 witness: concrete instances of the amended behaviour — a
batched file extends element-wise, a single-result file appends
whole, an unreadable file contributes nothing. -/
theorem load_results_amended_witness :
    fileItems (some (.jobj [("results", .jarr [.jnum 1, .jnum 2])])) =
      [.jnum 1, .jnum 2] ∧
    fileItems (some (.jobj [("benchmark", .jstr "b")])) =
      [.jobj [("benchmark", .jstr "b")]] ∧
    fileItems none = [] :=
  ⟨load_results_amended.2.1 [("results", .jarr [.jnum 1, .jnum 2])]
      [.jnum 1, .jnum 2] rfl,
   load_results_amended.2.2.1 [("benchmark", .jstr "b")] rfl,
   load_results_amended.2.2.2.2.1⟩

/-- C6: `calculate_statistics` of the empty list returns exactly the
zero statistics (`count=0`, `avg_score=0`, `min_score=0`,
`max_score=0`, `pass_rate=0`) and does not raise: the result is `ok`,
with no division and no `min`/`max` of an empty sequence evaluated. -/
theorem calculate_statistics_empty :
    calculate_statistics [] = .ok ⟨0, 0, 0, 0, 0⟩ := rfl

theorem except_bind_error {α β : Type} (e : String) (f : α → Except String β) :
    (Except.error e : Except String α) >>= f = .error e := rfl

theorem mapM'_ok_length {α β : Type} (f : α → Except String β)
    (l : List α) : ∀ l' : List β, List.mapM' f l = .ok l' → l'.length = l.length := by
  induction l with
  | nil =>
    intro l' h
    simp only [List.mapM'] at h
    cases h
    rfl
  | cons a as ih =>
    intro l' h
    simp only [List.mapM'] at h
    cases hfa : f a with
    | error e => rw [hfa, except_bind_error] at h; cases h
    | ok b =>
      rw [hfa, except_bind_ok] at h
      cases hrec : List.mapM' f as with
      | error e => rw [hrec, except_bind_error] at h; cases h
      | ok bs =>
        rw [hrec, except_bind_ok] at h
        cases h
        simp [ih bs hrec]

theorem foldl_min_mem (xs : List ℚ) (x : ℚ) : xs.foldl min x ∈ x :: xs := by
  induction xs generalizing x with
  | nil => simp
  | cons y ys ih =>
    simp only [List.foldl_cons]
    rcases List.mem_cons.mp (ih (min x y)) with h | h
    · rcases min_choice x y with hc | hc
      · rw [h, hc]; exact List.mem_cons_self _ _
      · rw [h, hc]; exact List.mem_cons_of_mem _ (List.mem_cons_self _ _)
    · exact List.mem_cons_of_mem _ (List.mem_cons_of_mem _ h)

theorem foldl_min_le (xs : List ℚ) (x : ℚ) : ∀ y ∈ x :: xs, xs.foldl min x ≤ y := by
  induction xs generalizing x with
  | nil =>
    intro y hy
    simp only [List.mem_cons, List.not_mem_nil, or_false] at hy
    simp [hy]
  | cons z zs ih =>
    intro y hy
    simp only [List.foldl_cons]
    rcases List.mem_cons.mp hy with rfl | hy'
    · exact le_trans (ih (min y z) _ (List.mem_cons_self _ _)) (min_le_left _ _)
    · rcases List.mem_cons.mp hy' with rfl | hy''
      · exact le_trans (ih (min x y) _ (List.mem_cons_self _ _)) (min_le_right _ _)
      · exact ih (min x z) y (List.mem_cons_of_mem _ hy'')

theorem foldl_max_mem (xs : List ℚ) (x : ℚ) : xs.foldl max x ∈ x :: xs := by
  induction xs generalizing x with
  | nil => simp
  | cons y ys ih =>
    simp only [List.foldl_cons]
    rcases List.mem_cons.mp (ih (max x y)) with h | h
    · rcases max_choice x y with hc | hc
      · rw [h, hc]; exact List.mem_cons_self _ _
      · rw [h, hc]; exact List.mem_cons_of_mem _ (List.mem_cons_self _ _)
    · exact List.mem_cons_of_mem _ (List.mem_cons_of_mem _ h)

theorem foldl_max_ge (xs : List ℚ) (x : ℚ) : ∀ y ∈ x :: xs, y ≤ xs.foldl max x := by
  induction xs generalizing x with
  | nil =>
    intro y hy
    simp only [List.mem_cons, List.not_mem_nil, or_false] at hy
    simp [hy]
  | cons z zs ih =>
    intro y hy
    simp only [List.foldl_cons]
    rcases List.mem_cons.mp hy with rfl | hy'
    · exact le_trans (le_max_left _ _) (ih (max y z) _ (List.mem_cons_self _ _))
    · rcases List.mem_cons.mp hy' with rfl | hy''
      · exact le_trans (le_max_right _ _) (ih (max x y) _ (List.mem_cons_self _ _))
      · exact ih (max x z) y (List.mem_cons_of_mem _ hy'')

/-- C7: for every non-empty list of result dicts, the statistics are:
`count` the length, `avg_score` the arithmetic mean of the (defaulted
to 0) `final_score` numbers, `min_score`/`max_score` the extremes of
those numbers, `pass_rate` the percentage (0-100) of results whose
`passed` is truthy; in particular the fixture with scores
`[80, 90, 100]` and `passed` `[true, true, false]` yields
`avg_score = 90`, `min_score = 80`, `max_score = 100`,
`pass_rate = 200/3 ≈ 66.7`. -/
theorem calculate_statistics_nonempty :
    (∀ (results scores passedVals : List JVal) (nums : List ℚ),
      results ≠ [] →
      results.mapM (fun r => pyDictGet r "final_score" (.jnum 0)) = .ok scores →
      results.mapM (fun r => pyDictGet r "passed" (.jbool false)) = .ok passedVals →
      scores.mapM pyToNum = .ok nums →
      ∃ s, calculate_statistics results = .ok s ∧
        s.count = results.length ∧
        s.avg_score = nums.sum / (results.length : ℚ) ∧
        s.min_score ∈ nums ∧ (∀ x ∈ nums, s.min_score ≤ x) ∧
        s.max_score ∈ nums ∧ (∀ x ∈ nums, x ≤ s.max_score) ∧
        s.pass_rate =
          ((passedVals.filter pyTruthy).length : ℚ) / (results.length : ℚ) * 100) ∧
    calculate_statistics
      [.jobj [("final_score", .jnum 80), ("passed", .jbool true)],
       .jobj [("final_score", .jnum 90), ("passed", .jbool true)],
       .jobj [("final_score", .jnum 100), ("passed", .jbool false)]] =
      .ok ⟨3, 90, 80, 100, 200/3⟩ := by
  constructor
  · intro results scores passedVals nums hne hs hp hn
    cases results with
    | nil => exact absurd rfl hne
    | cons r0 rest =>
      have hslen : scores.length = rest.length + 1 := by
        simpa using mapM'_ok_length _ _ scores (by rwa [List.mapM'_eq_mapM])
      have hnlen : nums.length = scores.length :=
        mapM'_ok_length _ _ nums (by rwa [List.mapM'_eq_mapM])
      cases nums with
      | nil => simp [hslen] at hnlen
      | cons n0 ntl =>
        refine ⟨⟨(r0 :: rest).length,
          (n0 :: ntl).sum / ((r0 :: rest).length : ℚ),
          ntl.foldl min n0, ntl.foldl max n0,
          ((passedVals.filter pyTruthy).length : ℚ) / ((r0 :: rest).length : ℚ) * 100⟩,
          ?_, rfl, rfl, foldl_min_mem ntl n0, foldl_min_le ntl n0,
          foldl_max_mem ntl n0, foldl_max_ge ntl n0, rfl⟩
        simp only [calculate_statistics, List.isEmpty_cons, Bool.false_eq_true,
          if_false, hs, hp, hn, except_bind_ok, pyMin, pyMax]
        rfl
  · simp [calculate_statistics, List.mapM, List.mapM.loop, pyDictGet, dictGetD,
      dictLookup, pyToNum, pyMin, pyMax, pyTruthy, Stats.mk.injEq,
      Bind.bind, Except.bind, Functor.map, Except.map, Pure.pure, Except.pure]
    norm_num

/-- C7 witness: the general statement applied to the claim's fixture. -/
theorem calculate_statistics_nonempty_witness :
    ∃ s, calculate_statistics
      [.jobj [("final_score", .jnum 80), ("passed", .jbool true)],
       .jobj [("final_score", .jnum 90), ("passed", .jbool true)],
       .jobj [("final_score", .jnum 100), ("passed", .jbool false)]] = .ok s ∧
      s.count = 3 ∧
      s.avg_score = [(80 : ℚ), 90, 100].sum / ((3 : ℕ) : ℚ) ∧
      s.min_score ∈ [(80 : ℚ), 90, 100] ∧ (∀ x ∈ [(80 : ℚ), 90, 100], s.min_score ≤ x) ∧
      s.max_score ∈ [(80 : ℚ), 90, 100] ∧ (∀ x ∈ [(80 : ℚ), 90, 100], x ≤ s.max_score) ∧
      s.pass_rate = (((2 : ℕ) : ℚ)) / ((3 : ℕ) : ℚ) * 100 := by
  have h := calculate_statistics_nonempty.1
    [.jobj [("final_score", .jnum 80), ("passed", .jbool true)],
     .jobj [("final_score", .jnum 90), ("passed", .jbool true)],
     .jobj [("final_score", .jnum 100), ("passed", .jbool false)]]
    [.jnum 80, .jnum 90, .jnum 100]
    [.jbool true, .jbool true, .jbool false]
    [80, 90, 100]
    (by simp) rfl rfl rfl
  simpa using h

/-!
## Claims about `group_by_benchmark`
-/

theorem keyIs_of_ok (r : JVal) (k0 k : HKey) (h : groupKeyOf r = .ok k0) :
    keyIs k r = decide (k0 = k) := by
  simp [keyIs, h]

theorem getGroup_insertGroup (g : List (HKey × List JVal)) (k0 k : HKey)
    (r : JVal) :
    getGroup (insertGroup g k0 r) k =
      if k0 = k then getGroup g k ++ [r] else getGroup g k := by
  induction g with
  | nil =>
    by_cases h : k0 = k <;> simp [insertGroup, getGroup, h]
  | cons p rest ih =>
    obtain ⟨k', rs⟩ := p
    by_cases h1 : k' = k0
    · subst h1
      by_cases h2 : k' = k
      · subst h2
        simp [insertGroup, getGroup]
      · simp [insertGroup, getGroup, h2]
    · by_cases h2 : k' = k
      · subst h2
        have h3 : k0 ≠ k' := fun hc => h1 hc.symm
        simp [insertGroup, getGroup, h1, h3]
      · simp [insertGroup, getGroup, h1, h2, ih]

theorem group_fold_general (results : List JVal) :
    ∀ acc : List (HKey × List JVal),
      (∀ r ∈ results, ∃ k, groupKeyOf r = .ok k) →
      ∃ g,
        (results.foldlM
          (fun g r => do pure (insertGroup g (← groupKeyOf r) r)) acc :
            Except String _) = .ok g ∧
        ∀ k, getGroup g k = getGroup acc k ++ results.filter (keyIs k) := by
  induction results with
  | nil =>
    intro acc h
    exact ⟨acc, rfl, fun k => by simp⟩
  | cons r rest ih =>
    intro acc h
    obtain ⟨k0, hk0⟩ := h r (List.mem_cons_self _ _)
    obtain ⟨g, hg, hprop⟩ :=
      ih (insertGroup acc k0 r) (fun r' hr' => h r' (List.mem_cons_of_mem _ hr'))
    refine ⟨g, ?_, ?_⟩
    · rw [List.foldlM_cons]
      show (groupKeyOf r >>= fun k => pure (insertGroup acc k r)) >>= _ = _
      rw [hk0, except_bind_ok]
      show (Except.ok (insertGroup acc k0 r) : Except String _) >>= _ = _
      rw [except_bind_ok]
      exact hg
    · intro k
      rw [hprop k, getGroup_insertGroup, List.filter_cons,
        keyIs_of_ok r k0 k hk0]
      by_cases hk : k0 = k
      · simp [hk, List.append_assoc]
      · simp [hk]

/-- C8: `group_by_benchmark` partitions its input by the (defaulted)
`benchmark` field: for every key, the group stored under it is exactly
the sublist of inputs filed under that key, in input order (results
appear within each group in the same relative order as in the input);
and a result dict lacking the `benchmark` field is filed under the
group named `"unknown"`. -/
theorem group_by_benchmark_partitions (results : List JVal)
    (h : ∀ r ∈ results, ∃ k, groupKeyOf r = .ok k) :
    (∃ g, group_by_benchmark results = .ok g ∧
      ∀ k, getGroup g k = results.filter (keyIs k)) ∧
    ∀ fields, dictLookup fields "benchmark" = none →
      groupKeyOf (.jobj fields) = .ok (.hstr "unknown") := by
  constructor
  · obtain ⟨g, hg, hprop⟩ := group_fold_general results [] h
    exact ⟨g, hg, fun k => by simpa [getGroup] using hprop k⟩
  · intro fields hf
    simp [groupKeyOf, pyDictGet, dictGetD, hf, toKey, except_bind_ok]

/-- C8 witness: the partition theorem applied to the fixture. -/
theorem group_by_benchmark_partitions_witness :
    (∃ g, group_by_benchmark groupFixture = .ok g ∧
      ∀ k, getGroup g k = groupFixture.filter (keyIs k)) ∧
    ∀ fields, dictLookup fields "benchmark" = none →
      groupKeyOf (.jobj fields) = .ok (.hstr "unknown") :=
  group_by_benchmark_partitions groupFixture (by
    intro r hr
    simp only [groupFixture, List.mem_cons, List.not_mem_nil, or_false] at hr
    rcases hr with rfl | rfl | rfl
    · exact ⟨.hstr "a", rfl⟩
    · exact ⟨.hstr "unknown", rfl⟩
    · exact ⟨.hstr "a", rfl⟩)

/-- C2 witness: a parsed JSON object is returned augmented. -/
theorem run_benchmark_json_object_result_witness :
    run_benchmark
      ⟨true,
       .completed "o" "" (some (.jobj [("passed", .jbool true), ("final_score", .jnum 95)])) 0,
       "2025-01-01T00:00:00"⟩ "bug-fixing-001" =
      dictSet
        (dictSet [("passed", .jbool true), ("final_score", .jnum 95)]
          "exit_code" (.jnum ((0 : ℤ) : ℚ)))
        "execution_time_ms" .jnull :=
  ((run_benchmark_json_object_result
      ⟨true,
       .completed "o" "" (some (.jobj [("passed", .jbool true), ("final_score", .jnum 95)])) 0,
       "2025-01-01T00:00:00"⟩ "bug-fixing-001").1
    "o" "" [("passed", .jbool true), ("final_score", .jnum 95)] 0 rfl rfl).1
